import Mathlib

/-!
# Verification of the parsec tool-use orchestration core

A shallow embedding, in Lean 4, of the core of the `rhpds/parsec`
repository: the conversation-history trimmer, the tool dispatcher, the
round-based orchestration loop (`src/agent/orchestrator.py`), the SSE
streaming helpers (`src/agent/streaming.py`), the read-only SQL gate of
the structured-query tool (`src/tools/provision_db.py`), and the alert
investigation fallback (`src/routes/alert.py`).

Python JSON-serializable values are modelled by the inductive `JVal`.
Integer literals are exact; a float is carried as the text of its
serialized form (`repr`-normalized at parse time, see `pyFloatRepr`).
Python dicts are association lists preserving insertion order, matching
CPython semantics relied on by the source.
Fallible Python code (subscripting a dict, writing a non-string) is
modelled with `Except PyExc`.
-/

set_option autoImplicit false
set_option maxRecDepth 1000000

namespace Parsec

/-- A JSON-like Python value: `None`, `bool`, `int`, `float`, `str`,
`list`, `dict`.  Dicts are ordered association lists (CPython insertion
order).  A float carries the text `json.dumps` prints for it (its
`repr`, or `Infinity`/`-Infinity`/`NaN`), fixed at parse time by
`pyFloatRepr`. -/
inductive JVal : Type
  | null
  | bool (b : Bool)
  | num (n : Int)
  | floatLit (text : String)
  | str (s : String)
  | arr (items : List JVal)
  | obj (fields : List (String × JVal))

/-- `d.get(k)` on a Python dict (`None`-free variant: `Option`). -/
def jget (v : JVal) (k : String) : Option JVal :=
  match v with
  | .obj fs => (fs.find? (fun p => p.1 == k)).map (·.2)
  | _ => none

/-- `d.get(k, default)` on a Python dict. -/
def jgetD (v : JVal) (k : String) (d : JVal) : JVal := (jget v k).getD d

/-- `k in d` on a Python dict. -/
def jhas (v : JVal) (k : String) : Bool := (jget v k).isSome

/-- Update (or append) a key in an ordered association list, preserving the
position of an existing key — CPython `d[k] = x` semantics. -/
def setField : List (String × JVal) → String → JVal → List (String × JVal)
  | [], k, x => [(k, x)]
  | (k', v') :: rest, k, x =>
    if k' == k then (k, x) :: rest else (k', v') :: setField rest k x

/-- `d[k] = x` on a Python dict (no-op on non-dicts). -/
def jset (v : JVal) (k : String) (x : JVal) : JVal :=
  match v with
  | .obj fs => .obj (setField fs k x)
  | _ => v

/-- Is the value a Python dict? -/
def isDict : JVal → Bool
  | .obj _ => true
  | _ => false

/-- `d.get(k) == s` for a string literal `s` (Python `==` between a possibly
missing value and a string). -/
def jStrEq (v : Option JVal) (s : String) : Bool :=
  match v with
  | some (.str t) => t == s
  | _ => false

/-- Lower-case hexadecimal digit, as produced by Python's `json` module. -/
def hexDigit (n : Nat) : Char :=
  if n < 10 then Char.ofNat (48 + n) else Char.ofNat (87 + n % 16)

/-- A `\uXXXX` escape. -/
def uEscape (n : Nat) : String :=
  ⟨['\\', 'u', hexDigit (n / 4096 % 16), hexDigit (n / 256 % 16),
    hexDigit (n / 16 % 16), hexDigit (n % 16)]⟩

/-- Escape one character the way `json.dumps` (default `ensure_ascii=True`)
does: printable ASCII except `"` and `\` passes through, short escapes for
the usual control characters, `\uXXXX` (with surrogate pairs above the BMP)
for everything else. -/
def escapeChar (c : Char) : String :=
  if c = '"' then "\\\""
  else if c = '\\' then "\\\\"
  else if c = '\n' then "\\n"
  else if c = '\t' then "\\t"
  else if c = '\r' then "\\r"
  else if c.toNat = 8 then "\\b"
  else if c.toNat = 12 then "\\f"
  else if c.toNat < 32 ∨ 126 < c.toNat then
    if c.toNat < 65536 then uEscape c.toNat
    else
      uEscape (55296 + (c.toNat - 65536) / 1024) ++ uEscape (56320 + (c.toNat - 65536) % 1024)
  else String.singleton c

/-- Escape a whole string for JSON output. -/
def escapeString (s : String) : String := String.join (s.toList.map escapeChar)

mutual

/-- `json.dumps(v)` with the default separators `", "` and `": "` —
exactly the call sites in `orchestrator.py` (`_estimate_tokens`,
tool-result content, truncated tool results). -/
def dumps : JVal → String
  | .null => "null"
  | .bool true => "true"
  | .bool false => "false"
  | .num n => toString n
  | .floatLit t => t
  | .str s => "\"" ++ escapeString s ++ "\""
  | .arr items => "[" ++ dumpsArr items ++ "]"
  | .obj fs => "\x7b" ++ dumpsObj fs ++ "\x7d"

/-- Comma-separated array elements. -/
def dumpsArr : List JVal → String
  | [] => ""
  | [x] => dumps x
  | x :: y :: rest => dumps x ++ ", " ++ dumpsArr (y :: rest)

/-- Comma-separated `"key": value` pairs. -/
def dumpsObj : List (String × JVal) → String
  | [] => ""
  | [(k, v)] => "\"" ++ escapeString k ++ "\": " ++ dumps v
  | (k, v) :: p :: rest =>
    "\"" ++ escapeString k ++ "\": " ++ dumps v ++ ", " ++ dumpsObj (p :: rest)

end

mutual

/-- Python `repr`-style rendering of containers (best effort; unused by
any claim, present only so `pyStr` below is total). -/
def pyReprAux : JVal → String
  | .null => "None"
  | .bool true => "True"
  | .bool false => "False"
  | .num n => toString n
  | .floatLit t =>
    if t == "Infinity" then "inf"
    else if t == "-Infinity" then "-inf"
    else if t == "NaN" then "nan"
    else t
  | .str s => "'" ++ s ++ "'"
  | .arr items => "[" ++ String.intercalate ", " (pyReprList items) ++ "]"
  | .obj fs => "\x7b" ++ String.intercalate ", " (pyReprFields fs) ++ "\x7d"

/-- `repr` of list elements. -/
def pyReprList : List JVal → List String
  | [] => []
  | x :: rest => pyReprAux x :: pyReprList rest

/-- `repr` of dict entries. -/
def pyReprFields : List (String × JVal) → List String
  | [] => []
  | (k, v) :: rest => ("'" ++ k ++ "': " ++ pyReprAux v) :: pyReprFields rest

end

/-- Python `str(v)` (only the scalar cases are ever reached in this
development; containers use Python `repr`-style rendering). -/
def pyStr : JVal → String
  | .null => "None"
  | .bool true => "True"
  | .bool false => "False"
  | .num n => toString n
  | .str s => s
  | v => pyReprAux v

/-- Python truthiness (`if not x`). -/
def pyTruthy : JVal → Bool
  | .null => false
  | .bool b => b
  | .num n => n != 0
  | .floatLit t => !(t == "0.0" || t == "-0.0")
  | .str s => !s.isEmpty
  | .arr xs => !xs.isEmpty
  | .obj fs => !fs.isEmpty

/-! ## `json.loads`

A recursive-descent JSON parser modelling Python's `json.loads` as used by
`_trim_history`.  The full JSON number grammar is parsed (including the
`Infinity`/`-Infinity`/`NaN` constants Python accepts by default, the
rejection of leading zeros, and of `.`/`e` parts without digits), so the
parser succeeds and fails exactly where `json.loads` does.  A non-integer
number is carried as the text `repr`/`json.dumps` would print for it,
computed by `pyFloatRepr` from the literal's exact decimal value — exact
whenever that decimal is the shortest representation of its double (true
of everything `json.dumps` itself emits); literals beyond double
precision or range keep their exact decimal instead of being rounded.
Duplicate object keys follow CPython dict semantics (first position, last
value).  The parser is driven by a fuel list whose length
(`2·length + 2`) always suffices; a list is used so the kernel can
evaluate lazily. -/

/-- JSON whitespace. -/
def isWs (c : Char) : Bool := c = ' ' || c = '\n' || c = '\t' || c = '\r'

/-- Drop leading JSON whitespace. -/
def skipWs : List Char → List Char
  | [] => []
  | c :: rest => if isWs c then skipWs rest else c :: rest

/-- Value of one hexadecimal digit. -/
def hexVal? (c : Char) : Option Nat :=
  if '0' ≤ c ∧ c ≤ '9' then some (c.toNat - 48)
  else if 'a' ≤ c ∧ c ≤ 'f' then some (c.toNat - 87)
  else if 'A' ≤ c ∧ c ≤ 'F' then some (c.toNat - 55)
  else none

/-- One-character JSON escapes. -/
def simpleEsc? (e : Char) : Option Char :=
  if e = '"' then some '"'
  else if e = '\\' then some '\\'
  else if e = '/' then some '/'
  else if e = 'b' then some (Char.ofNat 8)
  else if e = 'f' then some (Char.ofNat 12)
  else if e = 'n' then some '\n'
  else if e = 'r' then some '\r'
  else if e = 't' then some '\t'
  else none

/-- Parse the body of a JSON string after the opening quote. -/
def parseStringBody : List Char → Option (String × List Char)
  | [] => none
  | '"' :: rest => some ("", rest)
  | '\\' :: e :: rest2 =>
    if e = 'u' then
      match rest2 with
      | a :: b :: c :: d :: rest3 =>
        match hexVal? a, hexVal? b, hexVal? c, hexVal? d with
        | some x, some y, some z, some w =>
          (parseStringBody rest3).map
            (fun p => (String.singleton (Char.ofNat (x * 4096 + y * 256 + z * 16 + w)) ++ p.1, p.2))
        | _, _, _, _ => none
      | _ => none
    else
      match simpleEsc? e with
      | some ch => (parseStringBody rest2).map (fun p => (String.singleton ch ++ p.1, p.2))
      | none => none
  | ['\\'] => none
  | c :: rest =>
    if c.toNat < 32 then none
    else (parseStringBody rest).map (fun p => (String.singleton c ++ p.1, p.2))

/-- Split off a run of leading decimal digits. -/
def takeDigits : List Char → (List Char × List Char)
  | [] => ([], [])
  | c :: rest =>
    if '0' ≤ c ∧ c ≤ '9' then
      let (ds, r) := takeDigits rest
      (c :: ds, r)
    else ([], c :: rest)

/-- Numeric value of a digit run. -/
def digitsVal (ds : List Char) : Nat :=
  ds.foldl (fun acc c => acc * 10 + (c.toNat - 48)) 0

/-- Consume an expected literal suffix (`rue`, `alse`, `ull`, …). -/
def stripLit : List Char → List Char → Option (List Char)
  | [], cs => some cs
  | l :: ls, c :: cs => if c = l then stripLit ls cs else none
  | _ :: _, [] => none

/-- The text Python's `repr` (hence `json.dumps`) prints for the float a
JSON number literal denotes: significand digits `intDs`/`fracDs`, decimal
exponent `exp10`.  Normalizes the exact decimal value and applies
CPython's fixed-vs-scientific rule (fixed for decimal exponents in
`[-4, 16)`, otherwise `me±XX`).  This equals `repr(float(lit))` whenever
the literal's decimal value is the shortest decimal representation of its
nearest double. -/
def pyFloatRepr (neg : Bool) (intDs fracDs : List Char) (exp10 : Int) : String :=
  let allDs := intDs ++ fracDs
  let m0 : Int := exp10 - (fracDs.length : Int)
  let revStripped := allDs.reverse.dropWhile (fun c => c == '0')
  let tcount : Int := (allDs.length : Int) - (revStripped.length : Int)
  let S := revStripped.reverse.dropWhile (fun c => c == '0')
  if S.isEmpty then (if neg then "-0.0" else "0.0")
  else
    let m : Int := m0 + tcount
    let k : Int := (S.length : Int)
    let E : Int := k - 1 + m
    let sign := if neg then "-" else ""
    if -4 ≤ E ∧ E < 16 then
      if 0 ≤ m then
        sign ++ String.mk S ++ String.mk (List.replicate m.toNat '0') ++ ".0"
      else
        let t := (-m).toNat
        if t < S.length then
          sign ++ String.mk (S.take (S.length - t)) ++ "." ++ String.mk (S.drop (S.length - t))
        else
          sign ++ "0." ++ String.mk (List.replicate (t - S.length) '0') ++ String.mk S
    else
      let mant :=
        match S with
        | [] => ""
        | d :: rest => String.singleton d ++ (if rest.isEmpty then "" else "." ++ String.mk rest)
      let a := E.natAbs
      let estr := if a < 10 then "0" ++ toString a else toString a
      sign ++ mant ++ "e" ++ (if E < 0 then "-" else "+") ++ estr

/-- The optional fraction part `.[0-9]+` (`none` = syntax error: a dot
with no digits, which `json.loads` rejects). -/
def parseFracPart : List Char → Option (List Char × Bool × List Char)
  | '.' :: r2 =>
    match takeDigits r2 with
    | ([], _) => none
    | (fs, r3) => some (fs, true, r3)
  | r1 => some ([], false, r1)

/-- The optional exponent part `[eE][-+]?[0-9]+` (`none` = syntax error:
a marker with no digits). -/
def parseExpPart : List Char → Option (Int × Bool × List Char)
  | c :: r4 =>
    if c == 'e' || c == 'E' then
      let sp : Bool × List Char :=
        match r4 with
        | '-' :: r5 => (true, r5)
        | '+' :: r5 => (false, r5)
        | _ => (false, r4)
      match takeDigits sp.2 with
      | ([], _) => none
      | (es, r6) =>
        some ((if sp.1 then -(digitsVal es : Int) else (digitsVal es : Int)), true, r6)
    else some (0, false, c :: r4)
  | [] => some (0, false, [])

/-- A JSON number after the optional sign: integer part without leading
zeros, then fraction and exponent; an integer literal yields an exact
`int`, anything with a fraction or exponent a float. -/
def parseNumBody (neg : Bool) (cs : List Char) : Option (JVal × List Char) :=
  match takeDigits cs with
  | ([], _) => none
  | (ds, r1) =>
    if 1 < ds.length ∧ ds.headD '0' == '0' then none
    else
      match parseFracPart r1 with
      | none => none
      | some (fs, hadFrac, r3) =>
        match parseExpPart r3 with
        | none => none
        | some (ex, hadExp, r6) =>
          if hadFrac ∨ hadExp then
            some (.floatLit (pyFloatRepr neg ds fs ex), r6)
          else
            some (.num (if neg then -(digitsVal ds : Int) else (digitsVal ds : Int)), r6)

/-- Parse a JSON number (or `-Infinity`, which Python's scanner accepts
where a number may appear). -/
def parseNumber (cs : List Char) : Option (JVal × List Char) :=
  match cs with
  | '-' :: r =>
    match stripLit ['I', 'n', 'f', 'i', 'n', 'i', 't', 'y'] r with
    | some rest => some (.floatLit "-Infinity", rest)
    | none => parseNumBody true r
  | _ => parseNumBody false cs

/-- Build a dict from parsed key/value pairs with CPython duplicate-key
semantics: the first occurrence fixes the position, the last fixes the
value. -/
def buildDict (pairs : List (String × JVal)) : List (String × JVal) :=
  pairs.foldl (fun acc p => setField acc p.1 p.2) []

/-- Apply `buildDict` to a freshly parsed object. -/
def normObjTop : JVal → JVal
  | .obj pairs => .obj (buildDict pairs)
  | v => v

mutual

/-- Parse one JSON value.  The fuel list only bounds recursion; its
length (`2·input + 2` at top level) always suffices. -/
def parseVal : List Char → List Char → Option (JVal × List Char)
  | [], _ => none
  | _ :: fuel, cs =>
    match skipWs cs with
    | [] => none
    | '"' :: rest => (parseStringBody rest).map (fun p => (JVal.str p.1, p.2))
    | '{' :: rest => (parseObjRest fuel rest true).map (fun p => (normObjTop p.1, p.2))
    | '[' :: rest => parseArrRest fuel rest true
    | 't' :: rest => (stripLit ['r', 'u', 'e'] rest).map (fun r => (JVal.bool true, r))
    | 'f' :: rest => (stripLit ['a', 'l', 's', 'e'] rest).map (fun r => (JVal.bool false, r))
    | 'n' :: rest => (stripLit ['u', 'l', 'l'] rest).map (fun r => (JVal.null, r))
    | 'N' :: rest => (stripLit ['a', 'N'] rest).map (fun r => (JVal.floatLit "NaN", r))
    | 'I' :: rest =>
      (stripLit ['n', 'f', 'i', 'n', 'i', 't', 'y'] rest).map
        (fun r => (JVal.floatLit "Infinity", r))
    | cs' => parseNumber cs'

/-- Parse the remainder of a JSON array after `[` (or after a comma). -/
def parseArrRest : List Char → List Char → Bool → Option (JVal × List Char)
  | [], _, _ => none
  | _ :: fuel, cs, first =>
    match skipWs cs with
    | ']' :: rest => if first then some (.arr [], rest) else none
    | cs' =>
      match parseVal fuel cs' with
      | none => none
      | some (v, r) =>
        match skipWs r with
        | ',' :: r2 =>
          match parseArrRest fuel r2 false with
          | some (.arr items, r3) => some (.arr (v :: items), r3)
          | _ => none
        | ']' :: r2 => some (.arr [v], r2)
        | _ => none

/-- Parse the remainder of a JSON object after `{` (or after a comma);
the raw pair list is normalized by `buildDict` at the enclosing
`parseVal`. -/
def parseObjRest : List Char → List Char → Bool → Option (JVal × List Char)
  | [], _, _ => none
  | _ :: fuel, cs, first =>
    match skipWs cs with
    | '}' :: rest => if first then some (.obj [], rest) else none
    | '"' :: rest =>
      match parseStringBody rest with
      | none => none
      | some (k, r) =>
        match skipWs r with
        | ':' :: r2 =>
          match parseVal fuel (skipWs r2) with
          | none => none
          | some (v, r3) =>
            match skipWs r3 with
            | ',' :: r4 =>
              match parseObjRest fuel r4 false with
              | some (.obj fs, r5) => some (.obj ((k, v) :: fs), r5)
              | _ => none
            | '}' :: r4 => some (.obj [(k, v)], r4)
            | _ => none
        | _ => none
    | _ => none

end

/-- `json.loads`: parse a complete JSON document (with trailing whitespace
allowed), `none` on failure — Python raises `json.JSONDecodeError`, which
`_trim_history` catches.  The fuel list `data ++ data ++ "  "` has length
`2·length + 2`, always enough. -/
def loads (s : String) : Option JVal :=
  match parseVal (s.data ++ s.data ++ [' ', ' ']) s.data with
  | some (v, rest) =>
    match skipWs rest with
    | [] => some v
    | _ => none
  | none => none

/-! ## Conversation History Manager — `_trim_history`
(src/agent/orchestrator.py, lines 238–296) -/

/-- `_estimate_tokens(obj)`: `len(json.dumps(obj, default=str)) // 4`,
applied by `_trim_history` to the whole message list. -/
def estimate_tokens (messages : List JVal) : Nat :=
  (dumps (.arr messages)).length / 4

/-- `result_str[:2000] + "... [truncated]"` — the hard-truncation fallback
in `_trim_history`'s first pass. -/
def hardTruncate (s : String) : String := s.take 2000 ++ "... [truncated]"

/-- Python slicing `v[:5]`: defined on lists and strings, `TypeError`
(modelled as `none`) on anything else.  Used for `result_data["rows"][:5]`,
whose `TypeError` is caught together with `JSONDecodeError`. -/
def slicePy5? : JVal → Option JVal
  | .arr xs => some (.arr (xs.take 5))
  | .str s => some (.str (s.take 5))
  | _ => none

/-- Is a content block a `tool_result` dict
(`isinstance(block, dict) and block.get("type") == "tool_result"`)? -/
def isToolResultBlock (b : JVal) : Bool :=
  isDict b && jStrEq (jget b "type") "tool_result"

/-- The `results` step of the first pass: if `"results" in result_data` and
it is a list, keep its first 5 elements and set the
`_truncated_for_context` marker. -/
def resultsStep (rd : JVal) : JVal :=
  match jget rd "results" with
  | some (.arr xs) =>
    jset (jset rd "results" (.arr (xs.take 5))) "_truncated_for_context" (.bool true)
  | _ => rd

/-- The per-block body of `_trim_history`'s first pass: a `tool_result`
block whose `content` is a string longer than 2000 characters is either
re-serialized with `rows`/`results` truncated to 5 elements (when the
string parses as a JSON dict), or hard-truncated to 2000 characters (when
parsing or the `rows` slicing raises).  Everything else is untouched. -/
def truncBlock (block : JVal) : JVal :=
  if isToolResultBlock block then
    match jgetD block "content" (.str "") with
    | .str s =>
      if 2000 < s.length then
        match loads s with
        | none => jset block "content" (.str (hardTruncate s))
        | some rd =>
          match rd with
          | .obj _ =>
            match jget rd "rows" with
            | some rv =>
              match slicePy5? rv with
              | none => jset block "content" (.str (hardTruncate s))
              | some rv5 =>
                let rd1 := jset (jset rd "rows" rv5) "_truncated_for_context" (.bool true)
                jset block "content" (.str (dumps (resultsStep rd1)))
            | none => jset block "content" (.str (dumps (resultsStep rd)))
          | _ => block
      else block
    | _ => block
  else block

/-- The per-message body of the first pass: map `truncBlock` over the
blocks of a list-valued `content`, leave other messages alone. -/
def truncMsg (msg : JVal) : JVal :=
  match jget msg "content" with
  | some (.arr blocks) => jset msg "content" (.arr (blocks.map truncBlock))
  | _ => msg

/-- The first pass of `_trim_history`: `for msg in messages[:-4]` mutates
older messages in place; the last 4 messages are untouched. -/
def truncPass (messages : List JVal) : List JVal :=
  (messages.take (messages.length - 4)).map truncMsg ++
    messages.drop (messages.length - 4)

/-- `messages[0].get("role") == "assistant"`. -/
def isAssistant (m : JVal) : Bool := jStrEq (jget m "role") "assistant"

/-- `messages[0].get("role") == "user"`. -/
def isUser (m : JVal) : Bool := jStrEq (jget m "role") "user"

/-- An orphaned tool-result turn: role `user` with a list `content` all of
whose blocks are `tool_result` dicts (`all` of an empty list is `True`). -/
def isOrphanToolResultMsg (m : JVal) : Bool :=
  isUser m &&
    match jget m "content" with
    | some (.arr blocks) => blocks.all isToolResultBlock
    | _ => false

/-- `if messages and messages[0].get("role") == "assistant": messages.pop(0)`. -/
def popAssistant (m : List JVal) : List JVal :=
  match m with
  | b :: rest => if isAssistant b then rest else b :: rest
  | [] => []

/-- The orphaned-tool-result removal that follows the pair removal. -/
def popOrphan (m : List JVal) : List JVal :=
  match m with
  | c :: rest => if isOrphanToolResultMsg c then rest else c :: rest
  | [] => []

/-- One iteration of the eviction loop: `messages.pop(0)`, then pop an
assistant message if one is now oldest, then pop an orphaned tool-result
user message if one is now oldest. -/
def popSteps (m : List JVal) : List JVal :=
  match m with
  | [] => []
  | _ :: m1 => popOrphan (popAssistant m1)

theorem popAssistant_suffix (m : List JVal) : popAssistant m <:+ m := by
  cases m with
  | nil => exact List.nil_suffix
  | cons b rest =>
    unfold popAssistant
    by_cases hb : isAssistant b
    · simp [hb]
    · simp [hb]

theorem popOrphan_suffix (m : List JVal) : popOrphan m <:+ m := by
  cases m with
  | nil => exact List.nil_suffix
  | cons c rest =>
    unfold popOrphan
    by_cases hc : isOrphanToolResultMsg c
    · simp [hc]
    · simp [hc]

theorem popSteps_suffix (m : List JVal) : popSteps m <:+ m := by
  cases m with
  | nil => exact List.nil_suffix
  | cons x m1 =>
    have h1 : popOrphan (popAssistant m1) <:+ m1 :=
      (popOrphan_suffix _).trans (popAssistant_suffix _)
    exact (h1.trans (List.suffix_cons x m1))

theorem popSteps_length_lt (m : List JVal) (h : m ≠ []) :
    (popSteps m).length < m.length := by
  cases m with
  | nil => exact absurd rfl h
  | cons x m1 =>
    have h1 : popOrphan (popAssistant m1) <:+ m1 :=
      (popOrphan_suffix _).trans (popAssistant_suffix _)
    have := h1.length_le
    simpa [popSteps] using Nat.lt_succ_of_le this

/-- Fuel-indexed unfolding of the eviction loop.  Each iteration of the
source's `while` loop removes at least one message (`popSteps_length_lt`),
so `messages.length` is always enough fuel and the 0-fuel branch is never
the one that stops a run started with enough fuel. -/
def evictLoopF : Nat → Nat → List JVal → List JVal
  | 0, _, m => m
  | fuel + 1, max_tokens, m =>
    if 2 < m.length ∧ max_tokens < estimate_tokens m then
      evictLoopF fuel max_tokens (popSteps m)
    else m

/-- The eviction loop of `_trim_history`:
`while len(messages) > 2 and _estimate_tokens(messages) > max_tokens`,
each iteration removes the oldest pair plus a possible orphaned
tool-result message. -/
def evictLoop (max_tokens : Nat) (messages : List JVal) : List JVal :=
  evictLoopF messages.length max_tokens messages

/-- `_trim_history(history, max_tokens)` from src/agent/orchestrator.py:
return `[]` on empty input, the input unchanged when under budget, and
otherwise the first (truncation) pass followed by the eviction loop. -/
def trim_history (history : List JVal) (max_tokens : Nat) : List JVal :=
  match history with
  | [] => []
  | _ =>
    if estimate_tokens history ≤ max_tokens then history
    else evictLoop max_tokens (truncPass history)

/-- The last `n` messages of a history (`messages[-n:]`). -/
def lastN (n : Nat) (l : List JVal) : List JVal := l.drop (l.length - n)

/-! ### Structural lemmas about the trimmer -/

theorem evictLoopF_exit (B : Nat) :
    ∀ (fuel : Nat) (m : List JVal), m.length ≤ fuel →
      ¬(2 < (evictLoopF fuel B m).length ∧ B < estimate_tokens (evictLoopF fuel B m)) := by
  intro fuel
  induction fuel with
  | zero =>
    intro m hm
    have hm0 : m = [] := List.eq_nil_of_length_eq_zero (Nat.le_zero.mp hm)
    subst hm0
    intro hc
    simp [evictLoopF] at hc
  | succ k ih =>
    intro m hm
    rw [evictLoopF]
    split
    · next h =>
      exact ih (popSteps m)
        (Nat.le_of_lt_succ (Nat.lt_of_lt_of_le
          (popSteps_length_lt m
            (List.length_pos.mp (Nat.lt_of_lt_of_le (by norm_num) (Nat.le_of_lt h.1)))) hm))
    · next h => exact h

theorem evictLoopF_suffix (B : Nat) :
    ∀ (fuel : Nat) (m : List JVal), evictLoopF fuel B m <:+ m := by
  intro fuel
  induction fuel with
  | zero => intro m; exact List.suffix_refl m
  | succ k ih =>
    intro m
    rw [evictLoopF]
    split
    · exact (ih (popSteps m)).trans (popSteps_suffix m)
    · exact List.suffix_refl m

theorem evictLoop_exit (B : Nat) (m : List JVal) :
    ¬(2 < (evictLoop B m).length ∧ B < estimate_tokens (evictLoop B m)) :=
  evictLoopF_exit B m.length m (Nat.le_refl _)

theorem evictLoop_suffix (B : Nat) (m : List JVal) : evictLoop B m <:+ m :=
  evictLoopF_suffix B m.length m

theorem evictLoopF_of_exit (fuel B : Nat) (m : List JVal)
    (h : ¬(2 < m.length ∧ B < estimate_tokens m)) : evictLoopF fuel B m = m := by
  cases fuel with
  | zero => rfl
  | succ k => simp [evictLoopF, h]

theorem truncPass_length (m : List JVal) : (truncPass m).length = m.length := by
  simp [truncPass]

theorem truncPass_of_length_le (m : List JVal) (h : m.length ≤ 4) : truncPass m = m := by
  unfold truncPass
  have h4 : m.length - 4 = 0 := Nat.sub_eq_zero_of_le h
  rw [h4]
  simp

theorem truncPass_drop (m : List JVal) :
    (truncPass m).drop (m.length - 4) = m.drop (m.length - 4) := by
  have key : ∀ (A B : List JVal), A.length = m.length - 4 →
      (A ++ B).drop (m.length - 4) = B := by
    intro A B hA
    rw [← hA]
    exact List.drop_left A B
  unfold truncPass
  refine key _ _ ?_
  simp

/-- If a trimmed history still satisfies the loop's exit condition, running
`_trim_history` on it again changes nothing. -/
theorem trim_history_of_exit (r : List JVal) (B : Nat)
    (hr : ¬(2 < r.length ∧ B < estimate_tokens r)) : trim_history r B = r := by
  match r with
  | [] => rfl
  | x :: xs =>
    unfold trim_history
    by_cases h1 : estimate_tokens (x :: xs) ≤ B
    · simp [h1]
    · simp only [h1, if_false]
      have hlen : (x :: xs).length ≤ 2 := by
        rcases Nat.lt_or_ge 2 (x :: xs).length with h2 | h2
        · exact absurd ⟨h2, Nat.lt_of_not_le h1⟩ hr
        · exact h2
      rw [truncPass_of_length_le _ (Nat.le_trans hlen (by norm_num))]
      exact evictLoopF_of_exit _ B _ hr

theorem lastN_of_suffix (n : Nat) (l₁ l₂ : List JVal) (h : l₁ <:+ l₂)
    (hn : n ≤ l₁.length) : lastN n l₁ = lastN n l₂ := by
  obtain ⟨t, rfl⟩ := h
  unfold lastN
  have harith : t.length + l₁.length - n = t.length + (l₁.length - n) := by omega
  rw [List.length_append, harith, List.drop_append]

theorem trim_history_suffix_truncPass (h : List JVal) (B : Nat)
    (hb : ¬ estimate_tokens h ≤ B) (hne : h ≠ []) :
    trim_history h B <:+ truncPass h := by
  match h with
  | [] => exact absurd rfl hne
  | x :: xs =>
    unfold trim_history
    simp only [hb, if_false]
    exact evictLoop_suffix B _

/-- **C7.** `trim` is idempotent:
`_trim_history(_trim_history(h, B), B) == _trim_history(h, B)` for every
history `h` and budget `B`.  After one trim, either the result is under
budget (so the second call returns at the size check) or at most 2
messages remain (so the first pass is vacuous and the eviction guard
fails). -/
theorem trim_history_idempotent (h : List JVal) (B : Nat) :
    trim_history (trim_history h B) B = trim_history h B := by
  match h with
  | [] => rfl
  | x :: xs =>
    by_cases h1 : estimate_tokens (x :: xs) ≤ B
    · have hfix : trim_history (x :: xs) B = x :: xs := by
        unfold trim_history
        simp [h1]
      rw [hfix, hfix]
    · have hmain : trim_history (x :: xs) B = evictLoop B (truncPass (x :: xs)) := by
        unfold trim_history
        simp [h1]
      rw [hmain]
      exact trim_history_of_exit _ B
        (evictLoop_exit B _)

/-- **C2 (amended).** The trimmer never alters the last 4 messages in
place and evicts only from the front, so whenever at least 4 messages
survive `trim`, the last 4 messages of the result are identical to the
last 4 messages of the input.  (The unamended claim fails when the
eviction loop, still over budget, eats into the final 4 messages — see
the counterexample.) -/
theorem trim_history_preserves_last4 (h : List JVal) (B : Nat)
    (hlen : 4 ≤ h.length) (hres : 4 ≤ (trim_history h B).length) :
    lastN 4 (trim_history h B) = lastN 4 h := by
  match h with
  | [] => simp at hlen
  | x :: xs =>
    by_cases h1 : estimate_tokens (x :: xs) ≤ B
    · have hfix : trim_history (x :: xs) B = x :: xs := by
        unfold trim_history
        simp [h1]
      rw [hfix]
    · have hmain : trim_history (x :: xs) B = evictLoop B (truncPass (x :: xs)) := by
        unfold trim_history
        simp [h1]
      have hsuf : trim_history (x :: xs) B <:+ truncPass (x :: xs) := by
        rw [hmain]
        exact evictLoop_suffix B _
      have h2 : lastN 4 (trim_history (x :: xs) B) = lastN 4 (truncPass (x :: xs)) :=
        lastN_of_suffix 4 _ _ hsuf hres
      have h3 : lastN 4 (truncPass (x :: xs)) = lastN 4 (x :: xs) := by
        unfold lastN
        rw [truncPass_length]
        have h44 : (x :: xs).length - 4 = (x :: xs).length - 4 := rfl
        exact truncPass_drop (x :: xs)
      rw [h2, h3]

/-- **C8 (amended).** After `trim`, either the estimate is within budget
or at most 2 messages remain; and when the input was over budget the
result is a contiguous suffix of the first-pass output (eviction removes
whole messages from the front only).  The original "remaining minus 2 is
even" parity claim fails because one loop iteration may remove 1 or 3
messages (the pair plus an orphaned tool-result turn) — see the
counterexample. -/
theorem trim_history_budget_or_small (h : List JVal) (B : Nat) :
    (estimate_tokens (trim_history h B) ≤ B ∨ (trim_history h B).length ≤ 2) ∧
      (trim_history h B <:+ truncPass h ∨ trim_history h B = h) := by
  constructor
  · match h with
    | [] =>
      left
      have h0 : trim_history [] B = [] := rfl
      rw [h0]
      have h1 : estimate_tokens [] = 0 := rfl
      rw [h1]
      exact Nat.zero_le B
    | x :: xs =>
      by_cases h1 : estimate_tokens (x :: xs) ≤ B
      · left
        have hfix : trim_history (x :: xs) B = x :: xs := by
          unfold trim_history
          simp [h1]
        rw [hfix]
        exact h1
      · have hmain : trim_history (x :: xs) B = evictLoop B (truncPass (x :: xs)) := by
          unfold trim_history
          simp [h1]
        have := evictLoop_exit B (truncPass (x :: xs))
        rw [← hmain] at this
        rcases Nat.lt_or_ge 2 (trim_history (x :: xs) B).length with h2 | h2
        · left
          by_contra hb
          exact this ⟨h2, Nat.lt_of_not_le hb⟩
        · right
          exact h2
  · match h with
    | [] => right; rfl
    | x :: xs =>
      by_cases h1 : estimate_tokens (x :: xs) ≤ B
      · right
        unfold trim_history
        simp [h1]
      · left
        exact trim_history_suffix_truncPass _ B h1 (by simp)

/-! ### Concrete conversation data for the trimmer counterexamples -/

/-- A plain-text message `{"role": r, "content": c}`. -/
def mkMsg (r c : String) : JVal := .obj [("role", .str r), ("content", .str c)]

/-- A `tool_result` content block with string content. -/
def trBlock (tid c : String) : JVal :=
  .obj [("type", .str "tool_result"), ("tool_use_id", .str tid), ("content", .str c)]

/-- Six small alternating messages, used against a budget of 0. -/
def c2Hist : List JVal :=
  [mkMsg "user" "q1", mkMsg "assistant" "r1", mkMsg "user" "q2",
   mkMsg "assistant" "r2", mkMsg "user" "q3", mkMsg "assistant" "r3"]

/-- **C2 counterexample.** With 6 messages and budget 0, the eviction loop
(still over budget after removing the first pair) keeps evicting into the
final 4 messages and returns only the last 2, so the last 4 messages after
`trim` are not byte-identical to the last 4 before: the serialized forms
differ.  This refutes the unamended claim "for every history with ≥ 4
messages and every budget, the last 4 messages after trim are
byte-identical to before". -/
theorem trim_last4_counterexample :
    4 ≤ c2Hist.length ∧
      dumps (.arr (lastN 4 (trim_history c2Hist 0))) ≠ dumps (.arr (lastN 4 c2Hist)) := by
  constructor
  · decide
  · decide

/-- Witness for `trim_history_preserves_last4` at a concrete input: a
4-message history under a large budget retains all 4 messages, and the
last 4 after trimming coincide with the last 4 before. -/
theorem trim_history_preserves_last4_witness :
    4 ≤ (List.take 4 c2Hist).length ∧ 4 ≤ (trim_history (List.take 4 c2Hist) 100000).length ∧
      lastN 4 (trim_history (List.take 4 c2Hist) 100000) = lastN 4 (List.take 4 c2Hist) :=
  ⟨by decide, by decide,
    trim_history_preserves_last4 (List.take 4 c2Hist) 100000 (by decide) (by decide)⟩

/-- History for the C8 counterexample: a large first message, then an
assistant reply, then an orphaned tool-result user turn, then three small
messages. -/
def c8u1 : JVal := mkMsg "user" (String.mk (List.replicate 400 'a'))

/-- Assistant message following `c8u1`. -/
def c8a1 : JVal := mkMsg "assistant" "ok"

/-- A user message consisting solely of `tool_result` blocks. -/
def c8utr : JVal := .obj [("role", .str "user"), ("content", .arr [trBlock "t1" "x"])]

/-- The trailing small messages of the C8 history. -/
def c8a2 : JVal := mkMsg "assistant" "r2"

/-- Trailing user message. -/
def c8u2 : JVal := mkMsg "user" "q3"

/-- Trailing assistant message. -/
def c8a3 : JVal := mkMsg "assistant" "r3"

/-- The 6-message history driving the C8 counterexample. -/
def c8Hist : List JVal := [c8u1, c8a1, c8utr, c8a2, c8u2, c8a3]

/-- **C8 counterexample.** One iteration of the eviction loop removes
*three* messages — the oldest user+assistant pair plus the orphaned
tool-result turn `c8utr` — and then stops (the remaining 3 messages fit
the budget of 60).  Eviction occurred (6 → 3 messages), more than 2
messages remain, and `3 - 2 = 1` is odd, refuting the claim that after
eviction the number of remaining messages minus 2 is even or exactly 2
messages remain. -/
theorem trim_pairwise_eviction_counterexample :
    60 < estimate_tokens c8Hist ∧ c8Hist.length = 6 ∧
      (trim_history c8Hist 60).length = 3 ∧
      dumps (.arr (trim_history c8Hist 60)) = dumps (.arr [c8a2, c8u2, c8a3]) := by
  refine ⟨by decide, by decide, by decide, by decide⟩

/-! ### C6: what the first (truncation) pass really does -/

/-- `s.strip()`: drop leading and trailing whitespace. -/
def pyStrip (s : String) : String :=
  String.mk (((s.toList.dropWhile Char.isWhitespace).reverse.dropWhile
    Char.isWhitespace).reverse)

/-- `s.rstrip(";")`. -/
def rstripSemicolons (s : String) : String :=
  String.mk ((s.toList.reverse.dropWhile (fun c => c == ';')).reverse)

/-- `s.upper()` (ASCII, as in the SQL keywords concerned). -/
def pyUpper (s : String) : String := String.mk (s.toList.map Char.toUpper)

/-- Accumulator pass of Python's whitespace `str.split()`. -/
def splitWsAux : List Char → List Char → List (List Char)
  | [], acc => if acc.isEmpty then [] else [acc.reverse]
  | c :: rest, acc =>
    if c.isWhitespace then
      if acc.isEmpty then splitWsAux rest [] else acc.reverse :: splitWsAux rest []
    else splitWsAux rest (c :: acc)

/-- `stripped.split()[0]`: first whitespace-separated token (defaults to
the empty string on an empty input, which the caller never reaches). -/
def firstWordOf (s : String) : String := String.mk ((splitWsAux s.toList []).headD [])

/-- The alternatives of `_FORBIDDEN_PATTERN`, in regex order. -/
def forbiddenKeywords : List String :=
  ["INSERT", "UPDATE", "DELETE", "DROP", "CREATE", "ALTER", "TRUNCATE", "GRANT",
   "REVOKE", "COPY", "EXECUTE", "DO", "CALL", "SET", "RESET", "DISCARD", "LOAD",
   "VACUUM", "ANALYZE", "CLUSTER", "REINDEX", "LOCK", "PREPARE", "DEALLOCATE",
   "LISTEN", "NOTIFY", "UNLISTEN"]

/-- A regex word character, for the word boundaries of the pattern. -/
def isWordChar (c : Char) : Bool := c.isAlpha || c.isDigit || c = '_'

/-- Case-insensitive prefix match of an (upper-case) keyword; returns the
matched original-case characters and the remainder. -/
def matchesCI : List Char → List Char → Option (List Char × List Char)
  | [], cs => some ([], cs)
  | _ :: _, [] => none
  | k :: ks, c :: cs =>
    if c.toUpper = k then
      match matchesCI ks cs with
      | some (m, rest) => some (c :: m, rest)
      | none => none
    else none

/-- Try one keyword at the current position, honouring the trailing word
boundary. -/
def keywordAt (cs : List Char) (kw : String) : Option String :=
  match matchesCI kw.toList cs with
  | some (m, rest) =>
    match rest with
    | [] => some (String.mk m)
    | c :: _ => if isWordChar c then none else some (String.mk m)
  | none => none

/-- Leftmost case-insensitive word-boundary search for a forbidden
keyword — `_FORBIDDEN_PATTERN.search(stripped)` with the matched text
returned in the original case.  `prev` is the character before the
current position (for the leading word boundary). -/
def searchForbidden : Option Char → List Char → Option String
  | _, [] => none
  | prev, c :: rest =>
    let boundaryOk : Bool :=
      match prev with
      | none => true
      | some p => !isWordChar p
    if boundaryOk then
      match List.findSome? (fun kw => keywordAt (c :: rest) kw) forbiddenKeywords with
      | some m => some m
      | none => searchForbidden (some c) rest
    else searchForbidden (some c) rest

/-- `_FORBIDDEN_PATTERN.search(s)`, returning the matched text. -/
def findForbidden (s : String) : Option String := searchForbidden none s.toList

/-- `validate_sql(sql)` from src/tools/provision_db.py: `None` when the
statement passes the read-only gate, an error message otherwise. -/
def validate_sql (sql : String) : Option String :=
  if (pyStrip (rstripSemicolons (pyStrip sql))).toList = [] then some "Empty SQL statement"
  else if pyUpper (firstWordOf (pyStrip (rstripSemicolons (pyStrip sql)))) ≠ "SELECT" ∧
      pyUpper (firstWordOf (pyStrip (rstripSemicolons (pyStrip sql)))) ≠ "WITH" then
    some ("Only SELECT queries allowed, got: "
      ++ pyUpper (firstWordOf (pyStrip (rstripSemicolons (pyStrip sql)))))
  else
    match findForbidden (pyStrip (rstripSemicolons (pyStrip sql))) with
    | some kw => some ("Forbidden SQL keyword: " ++ kw)
    | none =>
      if ';' ∈ (pyStrip (rstripSemicolons (pyStrip sql))).toList then
        some "Multiple statements not allowed"
      else none

/-- A database row, column name to value. -/
abbrev Row := List (String × JVal)

/-- The provision-db connection, as an oracle over the statements the
tool sends: `exec` models `conn.execute` (`some msg` = raised exception),
`fetch` models `conn.fetch`. -/
structure Db where
  exec : String → Option String
  fetch : String → Except String (List Row)

/-- The `provision_db` configuration values read by `execute_query`. -/
structure DbCfg where
  max_rows : Nat
  statement_timeout_ms : Nat

/-- `_serialize(value)`: JSON-safe scalars pass through, everything else
becomes `str(value)`. -/
def pySerialize : JVal → JVal
  | .null => .null
  | .bool b => .bool b
  | .num n => .num n
  | .floatLit t => .floatLit t
  | .str s => .str s
  | v => .str (pyStr v)

/-- Python `s.split(sep)` over character lists (fuel-driven; the fuel
`length + 1` is always sufficient). -/
def splitOnListF (pat : List Char) : Nat → List Char → List Char → List (List Char)
  | _, acc, [] => [acc.reverse]
  | 0, acc, s => [acc.reverse ++ s]
  | fuel + 1, acc, c :: rest =>
    match stripLit pat (c :: rest) with
    | some r => acc.reverse :: splitOnListF pat fuel [] r
    | none => splitOnListF pat fuel (c :: acc) rest

/-- Python `sub in s` over character lists. -/
def containsSub (pat : List Char) : List Char → Bool
  | [] => pat.isEmpty
  | c :: rest => (stripLit pat (c :: rest)).isSome || containsSub pat rest

/-- `"limit" in trimmed.lower().split("order")[-1]`. -/
def hasLimitAfterOrder (trimmed : String) : Bool :=
  let lowered := trimmed.toList.map Char.toLower
  containsSub ("limit".toList)
    ((splitOnListF ("order".toList) (lowered.length + 1) [] lowered).getLastD [])

/-- The row-cap step: re-strip the statement and append
`LIMIT max_rows + 1` when no `limit` appears after the last `order`. -/
def addLimit (cfg : DbCfg) (sql : String) : String :=
  let trimmed := rstripSemicolons (pyStrip sql)
  if !hasLimitAfterOrder trimmed then
    trimmed ++ " LIMIT " ++ toString (cfg.max_rows + 1)
  else trimmed

/-- `{col: _serialize(row[col]) for col in columns}` — `row[col]` raises
`KeyError` (caught by the surrounding `except`) when a row lacks a column
of the first row. -/
def buildRow (columns : List String) (row : Row) : Except String Row :=
  columns.mapM (fun col =>
    match row.find? (fun p => p.1 == col) with
    | some p => .ok (col, pySerialize p.2)
    | none => .error ("'" ++ col ++ "'"))

/-- The observable behaviour of one `execute_query` call: the returned
dict and the statements actually sent to the database, in order. -/
structure DbTrace where
  result : JVal
  ops : List String

/-- `execute_query(sql)` from src/tools/provision_db.py: validate, set
the statement timeout, enforce the row cap, fetch, serialize; every
database exception is converted to an error payload. -/
def execute_query (cfg : DbCfg) (db : Db) (sql : String) : DbTrace :=
  match validate_sql sql with
  | some e => ⟨.obj [("error", .str e)], []⟩
  | none =>
    let setStmt := "SET statement_timeout = " ++ toString cfg.statement_timeout_ms
    match db.exec setStmt with
    | some e => ⟨.obj [("error", .str ("Query execution failed: " ++ e))], [setStmt]⟩
    | none =>
      let trimmed := addLimit cfg sql
      match db.fetch trimmed with
      | .error e =>
        ⟨.obj [("error", .str ("Query execution failed: " ++ e))], [setStmt, trimmed]⟩
      | .ok rows0 =>
        let truncated := cfg.max_rows < rows0.length
        let rows := if truncated then rows0.take cfg.max_rows else rows0
        match rows with
        | [] =>
          ⟨.obj [("columns", .arr []), ("rows", .arr []), ("row_count", .num 0),
                 ("truncated", .bool false)], [setStmt, trimmed]⟩
        | r0 :: rrest =>
          let columns := r0.map (·.1)
          match (r0 :: rrest).mapM (buildRow columns) with
          | .error e =>
            ⟨.obj [("error", .str ("Query execution failed: " ++ e))], [setStmt, trimmed]⟩
          | .ok resultRows =>
            ⟨.obj [("columns", .arr (columns.map JVal.str)),
                   ("rows", .arr (resultRows.map (fun r => .obj r))),
                   ("row_count", .num resultRows.length),
                   ("truncated", .bool truncated)], [setStmt, trimmed]⟩

theorem validate_sql_none_spec (sql : String) (h : validate_sql sql = none) :
    (pyUpper (firstWordOf (pyStrip (rstripSemicolons (pyStrip sql)))) = "SELECT" ∨
      pyUpper (firstWordOf (pyStrip (rstripSemicolons (pyStrip sql)))) = "WITH") ∧
      findForbidden (pyStrip (rstripSemicolons (pyStrip sql))) = none ∧
      ';' ∉ (pyStrip (rstripSemicolons (pyStrip sql))).toList := by
  unfold validate_sql at h
  split at h
  · exact absurd h (by simp)
  · split at h
    · exact absurd h (by simp)
    · next h2 =>
      split at h
      · exact absurd h (by simp)
      · next hf =>
        split at h
        · exact absurd h (by simp)
        · next h3 =>
          refine ⟨?_, hf, h3⟩
          rcases not_and_or.mp h2 with hx | hx
          · exact Or.inl (not_not.mp hx)
          · exact Or.inr (not_not.mp hx)

/-- **C10.** The structured-query tool's read-only gate: (1) every
statement `validate_sql` rejects yields exactly the error payload and an
empty database-operation trace; (2) `validate_sql` rejects every
statement whose first word is neither `SELECT` nor `WITH`, or that
contains a forbidden write/DDL keyword as a word, or that contains an
interior semicolon; (3) the database is reached only for statements that
pass the validation. -/
theorem execute_query_read_only_gate :
    (∀ (cfg : DbCfg) (db : Db) (sql e : String), validate_sql sql = some e →
        execute_query cfg db sql = ⟨.obj [("error", .str e)], []⟩) ∧
      (∀ sql : String,
        (pyUpper (firstWordOf (pyStrip (rstripSemicolons (pyStrip sql)))) ≠ "SELECT" ∧
            pyUpper (firstWordOf (pyStrip (rstripSemicolons (pyStrip sql)))) ≠ "WITH") ∨
          (findForbidden (pyStrip (rstripSemicolons (pyStrip sql)))).isSome = true ∨
          ';' ∈ (pyStrip (rstripSemicolons (pyStrip sql))).toList →
        (validate_sql sql).isSome = true) ∧
      (∀ (cfg : DbCfg) (db : Db) (sql : String), (execute_query cfg db sql).ops ≠ [] →
        validate_sql sql = none) := by
  refine ⟨?_, ?_, ?_⟩
  · intro cfg db sql e h
    unfold execute_query
    rw [h]
  · intro sql hc
    cases hv : validate_sql sql with
    | some e => rfl
    | none =>
      exfalso
      obtain ⟨hw, hf, hs⟩ := validate_sql_none_spec sql hv
      rcases hc with hc | hc | hc
      · rcases hw with hw | hw
        · exact hc.1 hw
        · exact hc.2 hw
      · rw [hf] at hc; simp at hc
      · exact hs hc
  · intro cfg db sql hops
    cases hv : validate_sql sql with
    | some e =>
      exfalso
      apply hops
      unfold execute_query
      rw [hv]
    | none => rfl

/-- Default provision-db configuration (`max_rows` 500, timeout 30000ms). -/
def dbCfg0 : DbCfg := ⟨500, 30000⟩

/-- A quiescent database oracle: every statement succeeds with no rows. -/
def db0 : Db := ⟨fun _ => none, fun _ => .ok []⟩

/-- Witness for `execute_query_read_only_gate`: `DROP TABLE users` is
rejected with an error payload and no database operation, its first word
fails the gate, and `SELECT 1` (which does reach the database) passes
validation. -/
theorem execute_query_read_only_gate_witness :
    execute_query dbCfg0 db0 "DROP TABLE users" =
        ⟨.obj [("error", .str "Only SELECT queries allowed, got: DROP")], []⟩ ∧
      (validate_sql "DROP TABLE users").isSome = true ∧
      validate_sql "SELECT 1" = none := by
  refine ⟨execute_query_read_only_gate.1 dbCfg0 db0 "DROP TABLE users"
      "Only SELECT queries allowed, got: DROP" (by rfl),
    execute_query_read_only_gate.2.1 "DROP TABLE users" (Or.inl (by decide)),
    execute_query_read_only_gate.2.2 dbCfg0 db0 "SELECT 1" (by decide)⟩

/-! ## Streaming Protocol Emitter (src/agent/streaming.py)

Events are modelled structurally by `Event`; `renderEvent` produces the
SSE frame exactly as the `sse_*` helpers do.  `sse_status` is imported by
the orchestrator but absent from src/agent/streaming.py in the source
tree; its frame shape is modelled from the spec (an advisory heartbeat
with a free-text label), which no claim depends on. -/

/-- One outbound streaming event, as produced by the orchestrator. -/
inductive Event
  | status (message : String)
  | text (content : String)
  | tool_start (tool : String) (input : List (String × JVal))
  | tool_result (tool : String) (result : JVal)
  | report (filename format : JVal) (url : String)
  | chart (data : JVal)
  | error (message : String)
  | history (payload : JVal)
  | done

/-- `sse_event(event, data)`: one SSE frame, name plus JSON payload,
terminated by a blank line. -/
def sse_event (event : String) (data : String) : String :=
  "event: " ++ event ++ "\ndata: " ++ data ++ "\n\n"

/-- The SSE frame of each event, following the `sse_*` helpers of
src/agent/streaming.py (`status` modelled from the spec, see above). -/
def renderEvent : Event → String
  | .status m => sse_event "status" (dumps (.obj [("message", .str m)]))
  | .text c => sse_event "text" (dumps (.obj [("content", .str c)]))
  | .tool_start t i => sse_event "tool_start" (dumps (.obj [("tool", .str t), ("input", .obj i)]))
  | .tool_result t r => sse_event "tool_result" (dumps (.obj [("tool", .str t), ("result", r)]))
  | .report f fm u =>
    sse_event "report" (dumps (.obj [("filename", f), ("format", fm), ("url", .str u)]))
  | .chart d => sse_event "chart" (dumps d)
  | .error m => sse_event "error" (dumps (.obj [("message", .str m)]))
  | .history p => sse_event "history" (dumps p)
  | .done => sse_event "done" (dumps (.obj []))

/-! ## Tool Registry — `_execute_tool` (src/agent/orchestrator.py, 55–149)

Downstream tool implementations (cost queries, CloudTrail, pricing …) are
external collaborators; they are modelled by an oracle
`run : String → List JVal → Except PyExc JVal` receiving the positional
arguments the dispatcher passes.  The dispatcher's own behaviour — the
name-keyed branch, required-key subscripting (`tool_input["sql"]`),
`.get` defaults, the chart echo, report saving, and the unknown-tool
error payload — is embedded from the source. -/

/-- A raised Python exception. -/
inductive PyExc
  | keyError (key : String)
  | typeError (msg : String)

/-- `d[k]` on a Python dict: the value, or a raised `KeyError`. -/
def pyIndexD (d : List (String × JVal)) (k : String) : Except PyExc JVal :=
  match d.find? (fun p => p.1 == k) with
  | some p => .ok p.2
  | none => .error (.keyError k)

/-- `d.get(k, default)` on a Python dict. -/
def pyGetD (d : List (String × JVal)) (k : String) (dflt : JVal) : JVal :=
  match d.find? (fun p => p.1 == k) with
  | some p => p.2
  | none => dflt

/-- `v[k]` on a `JVal` dict. -/
def pyIndexJ (v : JVal) (k : String) : Except PyExc JVal :=
  match jget v k with
  | some x => .ok x
  | none => .error (.keyError k)

/-- Ambient values `_save_report` reads from its environment: today's
date string and the reports directory. -/
structure SaveCtx where
  today : String
  reportsDir : String

/-- `_save_report(tool_input)` from src/agent/orchestrator.py (152–178):
required `title`/`content` (`KeyError` when missing), format/filename
defaults, the extension choice, the date-stamped default filename, the
file write (`TypeError` when `content` is not a string) and the returned
metadata dict. -/
def save_report (ctx : SaveCtx) (tool_input : List (String × JVal)) : Except PyExc JVal := do
  let title ← pyIndexD tool_input "title"
  let contentV ← pyIndexD tool_input "content"
  let fmt := pyGetD tool_input "format" (.str "markdown")
  let filename0 := pyGetD tool_input "filename" (.str "")
  let ext := if jStrEq (some fmt) "asciidoc" then ".adoc" else ".md"
  let filenameStr :=
    if pyTruthy filename0 then pyStr filename0 else "investigation_report_" ++ ctx.today
  let full := filenameStr ++ ext
  match contentV with
  | .str content =>
    .ok (.obj [("filename", .str full), ("format", fmt), ("title", title),
               ("path", .str (ctx.reportsDir ++ "/" ++ full)),
               ("size_bytes", .num (content.utf8ByteSize : Int))])
  | _ => .error (.typeError "write() argument must be str")

/-- The tool names `_execute_tool` dispatches on, in branch order. -/
def knownToolNames : List String :=
  ["query_provisions_db", "query_aws_costs", "query_azure_costs", "query_gcp_costs",
   "query_aws_pricing", "query_cost_monitor", "query_aws_capacity_manager",
   "query_cloudtrail", "query_aws_account", "query_marketplace_agreements",
   "render_chart", "generate_report"]

/-- `_execute_tool(tool_name, tool_input)` from src/agent/orchestrator.py:
dispatch by name; required keys are subscripted (raising `KeyError` when
absent), optional keys use `.get` defaults; `render_chart` echoes its
input; `generate_report` saves a report; an unknown name yields the
`{"error": "Unknown tool: <name>"}` payload. -/
def execute_tool (ctx : SaveCtx) (run : String → List JVal → Except PyExc JVal)
    (tool_name : String) (tool_input : List (String × JVal)) : Except PyExc JVal :=
  if tool_name = "query_provisions_db" then do
    let sql ← pyIndexD tool_input "sql"
    run "execute_query" [sql]
  else if tool_name = "query_aws_costs" then do
    let a ← pyIndexD tool_input "account_ids"
    let s ← pyIndexD tool_input "start_date"
    let e ← pyIndexD tool_input "end_date"
    run "query_aws_costs" [a, s, e, pyGetD tool_input "group_by" (.str "SERVICE")]
  else if tool_name = "query_azure_costs" then do
    let s ← pyIndexD tool_input "start_date"
    let e ← pyIndexD tool_input "end_date"
    run "query_azure_costs"
      [s, e, pyGetD tool_input "subscription_names" .null, pyGetD tool_input "meter_filter" .null]
  else if tool_name = "query_gcp_costs" then do
    let s ← pyIndexD tool_input "start_date"
    let e ← pyIndexD tool_input "end_date"
    run "query_gcp_costs"
      [s, e, pyGetD tool_input "group_by" (.str "SERVICE"),
       pyGetD tool_input "filter_services" .null, pyGetD tool_input "filter_projects" .null]
  else if tool_name = "query_aws_pricing" then do
    let it ← pyIndexD tool_input "instance_type"
    run "query_aws_pricing"
      [it, pyGetD tool_input "region" (.str "us-east-1"),
       pyGetD tool_input "os_type" (.str "Linux")]
  else if tool_name = "query_cost_monitor" then do
    let ep ← pyIndexD tool_input "endpoint"
    let s ← pyIndexD tool_input "start_date"
    let e ← pyIndexD tool_input "end_date"
    run "query_cost_monitor"
      [ep, s, e, pyGetD tool_input "providers" (.str ""),
       pyGetD tool_input "group_by" (.str ""), pyGetD tool_input "top_n" (.num 25),
       pyGetD tool_input "drilldown_type" (.str ""), pyGetD tool_input "selected_key" (.str "")]
  else if tool_name = "query_aws_capacity_manager" then
    run "query_aws_capacity_manager"
      [pyGetD tool_input "metric" (.str "utilization"), pyGetD tool_input "group_by" .null,
       pyGetD tool_input "instance_type" .null, pyGetD tool_input "account_id" .null,
       pyGetD tool_input "reservation_state" (.str "active"),
       pyGetD tool_input "hours" (.num 168)]
  else if tool_name = "query_cloudtrail" then do
    let q ← pyIndexD tool_input "query"
    run "query_cloudtrail" [q, pyGetD tool_input "max_results" (.num 100)]
  else if tool_name = "query_aws_account" then do
    let aid ← pyIndexD tool_input "account_id"
    let act ← pyIndexD tool_input "action"
    run "query_aws_account"
      [aid, act, pyGetD tool_input "region" (.str "us-east-1"),
       pyGetD tool_input "filters" .null]
  else if tool_name = "query_marketplace_agreements" then
    run "query_marketplace_agreements"
      [pyGetD tool_input "account_id" .null, pyGetD tool_input "account_name" .null,
       pyGetD tool_input "status" .null, pyGetD tool_input "classification" .null,
       pyGetD tool_input "min_cost" .null, pyGetD tool_input "product_name" .null,
       pyGetD tool_input "vendor_name" .null, pyGetD tool_input "max_results" (.num 100)]
  else if tool_name = "render_chart" then
    .ok (.obj tool_input)
  else if tool_name = "generate_report" then
    save_report ctx tool_input
  else
    .ok (.obj [("error", .str ("Unknown tool: " ++ tool_name))])

/-- **C1 counterexample.** Dispatching `query_provisions_db` with an empty
input dict propagates a `KeyError` (`tool_input["sql"]`) out of the
dispatcher instead of returning an error payload — refuting "for every
tool name and every input, the tool dispatch operation returns a Tool
Outcome value and never propagates an exception past its boundary". -/
theorem execute_tool_counterexample :
    execute_tool ⟨"2025-01-01", "reports"⟩ (fun _ _ => .ok .null) "query_provisions_db" [] =
      .error (.keyError "sql") := rfl

/-- **C1 (amended).** Dispatch returns the `{"error": "Unknown tool:
<name>"}` payload for every unknown tool name and every input; however
dispatch itself is not exception-free: a known tool whose required input
field is missing (e.g. `query_provisions_db` without `sql`) raises a
`KeyError` that propagates out of the dispatcher and aborts the
orchestration round. -/
theorem execute_tool_unknown_name :
    (∀ (ctx : SaveCtx) (run : String → List JVal → Except PyExc JVal)
        (name : String) (input : List (String × JVal)), name ∉ knownToolNames →
        execute_tool ctx run name input =
          .ok (.obj [("error", .str ("Unknown tool: " ++ name))])) ∧
      (∀ (ctx : SaveCtx) (run : String → List JVal → Except PyExc JVal),
        execute_tool ctx run "query_provisions_db" [] = .error (.keyError "sql")) := by
  constructor
  · intro ctx run name input h
    simp only [knownToolNames, List.mem_cons, List.not_mem_nil, or_false, not_or] at h
    obtain ⟨n1, n2, n3, n4, n5, n6, n7, n8, n9, n10, n11, n12⟩ := h
    simp [execute_tool, n1, n2, n3, n4, n5, n6, n7, n8, n9, n10, n11, n12]
  · intro ctx run
    rfl

/-- Witness for `execute_tool_unknown_name`: the unknown name
`frobnicate` yields exactly the unknown-tool error payload. -/
theorem execute_tool_unknown_name_witness :
    execute_tool ⟨"2025-01-01", "reports"⟩ (fun _ _ => .ok .null) "frobnicate" [] =
      .ok (.obj [("error", .str ("Unknown tool: " ++ "frobnicate"))]) :=
  execute_tool_unknown_name.1 ⟨"2025-01-01", "reports"⟩ (fun _ _ => .ok .null)
    "frobnicate" [] (by decide)

/-! ## Round-Based Orchestrator — `run_agent`
(src/agent/orchestrator.py, 351–476)

The loop is modelled as a pure function of a `Script`: the model-service
responses per round (a value or an `anthropic.APIError`), the number of
10-second heartbeats observed while waiting for each model call and each
tool call (timing-dependent in the source, universally quantified here),
the downstream tool oracle, and the `_save_report` environment.  Each
`yield` of the generator appends one `Event`; a propagating exception
(`task.result()` re-raising a dispatch `KeyError`, or
`_serialize_messages` failing) ends the stream with `crash ≠ none` and no
further events.  `calls` counts issued model calls. -/

/-- One `tool_use` content block of a model response. -/
structure ToolUse where
  id : String
  name : String
  input : List (String × JVal)

/-- One content block of a model response. -/
inductive RespBlock
  | text (s : String)
  | tool_use (t : ToolUse)

/-- One model call outcome: an `anthropic.APIError`, or a response. -/
inductive ModelCall
  | apiError (msg : String)
  | ok (blocks : List RespBlock)

/-- The environment of one orchestration run. -/
structure Script where
  clientErr : Option String
  modelCall : Nat → ModelCall
  modelHb : Nat → Nat
  toolHb : Nat → Nat → Nat
  run : String → List JVal → Except PyExc JVal
  save : SaveCtx

/-- The initial `sse_status("Analyzing results...")` label. -/
def analyzingMsg : String := "Analyzing results..."

/-- The round-ceiling explanatory text. -/
def roundsExhaustedMsg : String :=
  "\n\n_Reached maximum tool call rounds. Please refine your question._"

/-- `_SLOW_TOOL_LABELS.get(tool_name, f"Processing {tool_name}")`. -/
def slowToolLabel (name : String) : String :=
  if name = "query_cloudtrail" then "Scanning CloudTrail Lake"
  else if name = "query_aws_account" then "Querying AWS account"
  else "Processing " ++ name

/-- The heartbeat `status` events of one wait: labels with cumulative
elapsed seconds `10, 20, …`. -/
def hbStatuses (label : String) (n : Nat) : List Event :=
  (List.range n).map (fun i => .status (label ++ "... (" ++ toString ((i + 1) * 10) ++ "s)"))

/-- A model-response content block as the dict the SDK serializes it to. -/
def blockToJVal : RespBlock → JVal
  | .text s => .obj [("type", .str "text"), ("text", .str s)]
  | .tool_use t =>
    .obj [("type", .str "tool_use"), ("id", .str t.id), ("name", .str t.name),
          ("input", .obj t.input)]

/-- The assistant message appended after a model response
(`{"role": "assistant", "content": assistant_content}`). -/
def assistantMsgOf (blocks : List RespBlock) : JVal :=
  .obj [("role", .str "assistant"), ("content", .arr (blocks.map blockToJVal))]

/-- The `text` events streamed for a response, in block order. -/
def textEventsOf (blocks : List RespBlock) : List Event :=
  blocks.filterMap (fun b =>
    match b with
    | .text s => some (.text s)
    | .tool_use _ => none)

/-- The `tool_use` blocks of a response, in order. -/
def toolUsesOf (blocks : List RespBlock) : List ToolUse :=
  blocks.filterMap (fun b =>
    match b with
    | .text _ => none
    | .tool_use t => some t)

/-- `_clean_content_block(block)`: keep only `type`/`id`/`name`/`input`
on `tool_use` blocks. -/
def clean_content_block (block : JVal) : JVal :=
  match block with
  | .obj fs =>
    if jStrEq (jget block "type") "tool_use" then
      .obj (fs.filter (fun p =>
        p.1 = "type" ∨ p.1 = "id" ∨ p.1 = "name" ∨ p.1 = "input"))
    else block
  | _ => block

/-- `_serialize_messages` on one message: `msg["role"]` / `msg["content"]`
subscripting (`KeyError` when absent), string content passed through,
list content cleaned block-wise (non-dict blocks become text blocks of
`str(block)`), dict content iterated as its keys, and any other content
stringified. -/
def serialize_message (msg : JVal) : Except PyExc JVal := do
  let role ← pyIndexJ msg "role"
  let content ← pyIndexJ msg "content"
  match content with
  | .str _ => .ok (.obj [("role", role), ("content", content)])
  | .arr blocks =>
    .ok (.obj [("role", role),
      ("content", .arr (blocks.map (fun b =>
        match b with
        | .obj _ => clean_content_block b
        | _ => .obj [("type", .str "text"), ("text", .str (pyStr b))])))])
  | .obj fs =>
    .ok (.obj [("role", role),
      ("content", .arr (fs.map (fun p =>
        JVal.obj [("type", .str "text"), ("text", .str p.1)])))])
  | _ => .ok (.obj [("role", role), ("content", .str (pyStr content))])

/-- `_serialize_messages(messages)` (src/agent/orchestrator.py 308–348). -/
def serialize_messages : List JVal → Except PyExc (List JVal)
  | [] => .ok []
  | m :: rest => do
    let sm ← serialize_message m
    let srest ← serialize_messages rest
    .ok (sm :: srest)

/-- The observable outcome of a run: the emitted events in order, the
number of model calls issued, and whether an exception escaped the
generator (ending the stream early). -/
structure RunOut where
  events : List Event
  calls : Nat
  crash : Option PyExc

/-- The special side-channel events after a `tool_result` (orchestrator
454–459): a `report` event (with `result['filename']` / `result['format']`
subscripting) for successful `generate_report` calls, a `chart` event for
successful `render_chart` calls. -/
def specialEventsFor (name : String) (result : JVal) : Except PyExc (List Event) :=
  if name = "generate_report" then
    if jhas result "error" then .ok []
    else do
      let fn ← pyIndexJ result "filename"
      let fm ← pyIndexJ result "format"
      .ok [Event.report fn fm ("/api/reports/" ++ pyStr fn)]
  else if name = "render_chart" then
    .ok (if jhas result "error" then [] else [Event.chart result])
  else .ok []

/-- The per-round tool loop (orchestrator 433–467): for each `tool_use`
block in order — `tool_start`, keepalive heartbeats, dispatch,
`tool_result`, the special `report`/`chart` events — collecting the
`tool_result` content blocks.  A dispatch exception (re-raised by
`task.result()`) stops the loop and the whole generator. -/
def processTools (s : Script) (roundIdx : Nat) :
    Nat → List ToolUse → (List Event × List JVal × Option PyExc)
  | _, [] => ([], [], none)
  | toolIdx, t :: rest =>
    let startEv := Event.tool_start t.name t.input
    let hbs := hbStatuses (slowToolLabel t.name) (s.toolHb roundIdx toolIdx)
    match execute_tool s.save s.run t.name t.input with
    | .error e => (startEv :: hbs, [], some e)
    | .ok result =>
      let resEv := Event.tool_result t.name result
      match specialEventsFor t.name result with
      | .error e => (startEv :: (hbs ++ [resEv]), [], some e)
      | .ok sp =>
        let trEntry : JVal :=
          .obj [("type", .str "tool_result"), ("tool_use_id", .str t.id),
                ("content", .str (dumps result))]
        let pt := processTools s roundIdx (toolIdx + 1) rest
        (startEv :: (hbs ++ [resEv] ++ sp ++ pt.1), trEntry :: pt.2.1, pt.2.2)

/-- The round loop of `run_agent` (`for _round in range(max_rounds)`),
by recursion on the remaining rounds; the 0 case is the post-loop
round-ceiling epilogue (text, history, done). -/
def runLoop (s : Script) : Nat → Nat → List JVal → RunOut
  | _, 0, messages =>
    match serialize_messages messages with
    | .error e => ⟨[.text roundsExhaustedMsg], 0, some e⟩
    | .ok ser =>
      ⟨[.text roundsExhaustedMsg, .history (.obj [("messages", .arr ser)]), .done], 0, none⟩
  | roundIdx, rl + 1, messages =>
    let pre := Event.status analyzingMsg :: hbStatuses "Analyzing results" (s.modelHb roundIdx)
    match s.modelCall roundIdx with
    | .apiError m => ⟨pre ++ [.error ("Claude API error: " ++ m), .done], 1, none⟩
    | .ok blocks =>
      let messages1 := messages ++ [assistantMsgOf blocks]
      match toolUsesOf blocks with
      | [] =>
        match serialize_messages messages1 with
        | .error e => ⟨pre ++ textEventsOf blocks, 1, some e⟩
        | .ok ser =>
          ⟨pre ++ textEventsOf blocks ++
            [.history (.obj [("messages", .arr ser)]), .done], 1, none⟩
      | t :: ts =>
        let pt := processTools s roundIdx 0 (t :: ts)
        match pt.2.2 with
        | some e => ⟨pre ++ textEventsOf blocks ++ pt.1, 1, some e⟩
        | none =>
          let messages2 := messages1 ++
            [.obj [("role", .str "user"), ("content", .arr pt.2.1)]]
          let out := runLoop s (roundIdx + 1) rl messages2
          ⟨pre ++ textEventsOf blocks ++ pt.1 ++ out.events, out.calls + 1, out.crash⟩

/-- `run_agent(question, conversation_history)` (orchestrator 351–476):
client construction (a `ValueError` yields `error`+`done`), history
trimming at the 150000-token budget, the appended user question, and the
round loop with ceiling `maxRounds`. -/
def run_agent (maxRounds : Nat) (question : String) (history : List JVal)
    (s : Script) : RunOut :=
  match s.clientErr with
  | some e => ⟨[.error e, .done], 0, none⟩
  | none =>
    let messages := trim_history history 150000 ++
      [.obj [("role", .str "user"), ("content", .str question)]]
    runLoop s 0 maxRounds messages

/-! ### Stream-shape predicates for the terminal-event property -/

/-- Is the event the terminal `done` sentinel? -/
def isDone : Event → Bool
  | .done => true
  | _ => false

/-- Is the event a `history` event? -/
def isHistory : Event → Bool
  | .history _ => true
  | _ => false

/-- Number of `done` events in a stream. -/
def doneCount (es : List Event) : Nat := es.countP isDone

/-- Does the stream start with `done`? -/
def headIsDone : List Event → Bool
  | .done :: _ => true
  | _ => false

/-- Every `history` event is immediately followed by `done`. -/
def histBeforeDone : List Event → Bool
  | [] => true
  | .history _ :: rest => headIsDone rest && histBeforeDone rest
  | _ :: rest => histBeforeDone rest

/-- A well-terminated stream: exactly one `done`, it is the last event,
and any `history` event immediately precedes `done`. -/
def goodStream (es : List Event) : Prop :=
  doneCount es = 1 ∧ es.getLast? = some .done ∧ histBeforeDone es = true

/-- No `done` and no `history` event in the list. -/
def noDoneHist (es : List Event) : Bool :=
  es.all (fun e => !isDone e && !isHistory e)

theorem histBeforeDone_append (pre es : List Event) (h : noDoneHist pre = true) :
    histBeforeDone (pre ++ es) = histBeforeDone es := by
  induction pre with
  | nil => rfl
  | cons e pre ih =>
    simp only [noDoneHist, List.all_cons, Bool.and_eq_true] at h
    have hrest : noDoneHist pre = true := h.2
    cases e with
    | history p => simp [isHistory] at h
    | done => simp [isDone] at h
    | status m => simpa [histBeforeDone] using ih hrest
    | text m => simpa [histBeforeDone] using ih hrest
    | tool_start a b => simpa [histBeforeDone] using ih hrest
    | tool_result a b => simpa [histBeforeDone] using ih hrest
    | report a b u => simpa [histBeforeDone] using ih hrest
    | chart d => simpa [histBeforeDone] using ih hrest
    | error m => simpa [histBeforeDone] using ih hrest

theorem doneCount_eq_zero (pre : List Event) (h : noDoneHist pre = true) :
    doneCount pre = 0 := by
  simp only [noDoneHist, List.all_eq_true, Bool.and_eq_true] at h
  exact List.countP_eq_zero.mpr (fun e he => by simpa using (h e he).1)

theorem goodStream_append (pre es : List Event) (h1 : noDoneHist pre = true)
    (h2 : goodStream es) : goodStream (pre ++ es) := by
  obtain ⟨hc, hl, hh⟩ := h2
  have hne : es ≠ [] := by
    intro h0
    rw [h0] at hl
    simp at hl
  refine ⟨?_, ?_, ?_⟩
  · rw [doneCount, List.countP_append, ← doneCount, ← doneCount, doneCount_eq_zero pre h1, hc]
  · rw [List.getLast?_append_of_ne_nil pre hne]
    exact hl
  · rw [histBeforeDone_append pre es h1]
    exact hh

theorem goodStream_error_done (m : String) : goodStream [.error m, .done] := by
  refine ⟨rfl, rfl, rfl⟩

theorem goodStream_hist_done (p : JVal) : goodStream [.history p, .done] := by
  refine ⟨rfl, rfl, rfl⟩

theorem noDoneHist_append (a b : List Event) :
    noDoneHist (a ++ b) = (noDoneHist a && noDoneHist b) := by
  simp [noDoneHist, List.all_append]

theorem hbStatuses_noDH (label : String) (n : Nat) :
    noDoneHist (hbStatuses label n) = true := by
  simp [noDoneHist, hbStatuses, List.all_map, isDone, isHistory, Function.comp]

theorem textEventsOf_noDH (blocks : List RespBlock) :
    noDoneHist (textEventsOf blocks) = true := by
  induction blocks with
  | nil => rfl
  | cons b rest ih =>
    cases b with
    | text s =>
      simpa [textEventsOf, List.filterMap_cons, noDoneHist, isDone, isHistory] using ih
    | tool_use t =>
      simpa [textEventsOf, List.filterMap_cons] using ih

theorem noDH_iff (es : List Event) :
    noDoneHist es = true ↔ ∀ e ∈ es, isDone e = false ∧ isHistory e = false := by
  simp [noDoneHist, List.all_eq_true]

theorem mem_hbStatuses (label : String) (n : Nat) (e : Event)
    (h : e ∈ hbStatuses label n) : ∃ m, e = .status m := by
  simp only [hbStatuses, List.mem_map] at h
  obtain ⟨i, _, rfl⟩ := h
  exact ⟨_, rfl⟩

theorem specialEventsFor_noDH (name : String) (result : JVal) (sp : List Event)
    (h : specialEventsFor name result = .ok sp) : noDoneHist sp = true := by
  rw [noDH_iff]
  intro e he
  unfold specialEventsFor at h
  by_cases hg : name = "generate_report"
  · rw [if_pos hg] at h
    by_cases herr : jhas result "error" = true
    · rw [if_pos herr] at h
      cases h
      simp at he
    · rw [if_neg herr] at h
      cases hfn : pyIndexJ result "filename" with
      | error x =>
        rw [hfn] at h
        simp [Bind.bind, Except.bind] at h
      | ok fn =>
        cases hfm : pyIndexJ result "format" with
        | error x =>
          rw [hfn, hfm] at h
          simp [Bind.bind, Except.bind] at h
        | ok fm =>
          rw [hfn, hfm] at h
          simp only [Bind.bind, Except.bind, Except.ok.injEq] at h
          rw [← h] at he
          simp only [List.mem_singleton] at he
          subst he
          exact ⟨rfl, rfl⟩
  · rw [if_neg hg] at h
    by_cases hc : name = "render_chart"
    · rw [if_pos hc] at h
      cases h
      by_cases herr : jhas result "error" = true
      · simp [herr] at he
      · rw [if_neg herr] at he
        simp only [List.mem_singleton] at he
        subst he
        exact ⟨rfl, rfl⟩
    · rw [if_neg hc] at h
      cases h
      simp at he

theorem processTools_noDH (s : Script) (roundIdx : Nat) :
    ∀ (toolIdx : Nat) (ts : List ToolUse),
      noDoneHist (processTools s roundIdx toolIdx ts).1 = true := by
  intro toolIdx ts
  induction ts generalizing toolIdx with
  | nil => rfl
  | cons t rest ih =>
    rw [noDH_iff]
    intro e he
    unfold processTools at he
    cases hx : execute_tool s.save s.run t.name t.input with
    | error err =>
      rw [hx] at he
      dsimp only at he
      rcases List.mem_cons.mp he with rfl | he2
      · exact ⟨rfl, rfl⟩
      · obtain ⟨m, rfl⟩ := mem_hbStatuses _ _ _ he2
        exact ⟨rfl, rfl⟩
    | ok result =>
      rw [hx] at he
      dsimp only at he
      cases hsp : specialEventsFor t.name result with
      | error err =>
        rw [hsp] at he
        dsimp only at he
        rcases List.mem_cons.mp he with rfl | he2
        · exact ⟨rfl, rfl⟩
        · rcases List.mem_append.mp he2 with he3 | he3
          · obtain ⟨m, rfl⟩ := mem_hbStatuses _ _ _ he3
            exact ⟨rfl, rfl⟩
          · simp only [List.mem_singleton] at he3
            subst he3
            exact ⟨rfl, rfl⟩
      | ok sp =>
        rw [hsp] at he
        dsimp only at he
        rcases List.mem_cons.mp he with rfl | he2
        · exact ⟨rfl, rfl⟩
        · rcases List.mem_append.mp he2 with he3 | he3
          · rcases List.mem_append.mp he3 with he4 | he4
            · rcases List.mem_append.mp he4 with he5 | he5
              · obtain ⟨m, rfl⟩ := mem_hbStatuses _ _ _ he5
                exact ⟨rfl, rfl⟩
              · simp only [List.mem_singleton] at he5
                subst he5
                exact ⟨rfl, rfl⟩
            · exact (noDH_iff _).mp (specialEventsFor_noDH t.name result sp hsp) e he4
          · exact (noDH_iff _).mp (ih (toolIdx + 1)) e he3

theorem statusCons_noDH (m label : String) (n : Nat) :
    noDoneHist (Event.status m :: hbStatuses label n) = true := by
  rw [noDH_iff]
  intro e he
  rcases List.mem_cons.mp he with rfl | he2
  · exact ⟨rfl, rfl⟩
  · obtain ⟨m2, rfl⟩ := mem_hbStatuses _ _ _ he2
    exact ⟨rfl, rfl⟩

theorem runLoop_good (s : Script) :
    ∀ (rl roundIdx : Nat) (messages : List JVal),
      (runLoop s roundIdx rl messages).crash = none →
      goodStream (runLoop s roundIdx rl messages).events := by
  intro rl
  induction rl with
  | zero =>
    intro roundIdx messages hc
    cases hs : serialize_messages messages with
    | error e =>
      simp only [runLoop, hs] at hc
      exact absurd hc (by simp)
    | ok ser =>
      simp only [runLoop, hs]
      exact goodStream_append [.text roundsExhaustedMsg] _ rfl (goodStream_hist_done _)
  | succ k ih =>
    intro roundIdx messages hc
    cases hm : s.modelCall roundIdx with
    | apiError m =>
      simp only [runLoop, hm]
      exact goodStream_append _ _ (statusCons_noDH _ _ _) (goodStream_error_done m)
    | ok blocks =>
      cases ht : toolUsesOf blocks with
      | nil =>
        cases hs : serialize_messages (messages ++ [assistantMsgOf blocks]) with
        | error e =>
          simp only [runLoop, hm, ht, hs] at hc
          exact absurd hc (by simp)
        | ok ser =>
          simp only [runLoop, hm, ht, hs]
          refine goodStream_append _ _ ?_ (goodStream_hist_done _)
          rw [noDoneHist_append]
          rw [statusCons_noDH, textEventsOf_noDH]
          rfl
      | cons t ts =>
        cases hcr : (processTools s roundIdx 0 (t :: ts)).2.2 with
        | some e =>
          simp only [runLoop, hm, ht, hcr] at hc
          exact absurd hc (by simp)
        | none =>
          have hc2 := hc
          simp only [runLoop, hm, ht, hcr] at hc2
          simp only [runLoop, hm, ht, hcr]
          refine goodStream_append _ _ ?_ (ih (roundIdx + 1) _ hc2)
          rw [noDoneHist_append, noDoneHist_append]
          rw [statusCons_noDH, textEventsOf_noDH, processTools_noDH]
          rfl

/-- **C3 (amended).** For every run in which no exception escapes the
generator (`crash = none` — tool dispatch returned outcomes and history
serialization succeeded), the emitted event stream contains exactly one
`done` event, `done` is the last event, and every `history` event
immediately precedes `done`.  (The unamended "for every run" claim fails:
a dispatch `KeyError` aborts the generator with no `done` at all — see
the counterexample.) -/
theorem run_agent_terminal_event (maxR : Nat) (q : String) (hist : List JVal)
    (s : Script) (hc : (run_agent maxR q hist s).crash = none) :
    goodStream (run_agent maxR q hist s).events := by
  cases hcl : s.clientErr with
  | some e =>
    simp only [run_agent, hcl]
    exact goodStream_error_done e
  | none =>
    simp only [run_agent, hcl] at hc ⊢
    exact runLoop_good s maxR 0 _ hc

/-- The `_save_report` environment used by the concrete scripts. -/
def saveCtx0 : SaveCtx := ⟨"2025-01-01", "reports"⟩

/-- A run whose single model response is plain text. -/
def scrText : Script :=
  ⟨none, fun _ => .ok [.text "hello"], fun _ => 0, fun _ _ => 0,
   fun _ _ => .ok .null, saveCtx0⟩

/-- A run whose model response requests `query_provisions_db` with an
empty input dict (missing the required `sql` field). -/
def scrMissingSql : Script :=
  ⟨none, fun _ => .ok [.tool_use ⟨"t1", "query_provisions_db", []⟩], fun _ => 0,
   fun _ _ => 0, fun _ _ => .ok .null, saveCtx0⟩

/-- A run whose first model call raises an `anthropic.APIError`. -/
def scrApiFail : Script :=
  ⟨none, fun _ => .apiError "boom", fun _ => 0, fun _ _ => 0,
   fun _ _ => .ok .null, saveCtx0⟩

/-- A run in which every model response requests one `render_chart`
call. -/
def scrChartLoop : Script :=
  ⟨none, fun _ => .ok [.tool_use ⟨"t1", "render_chart", []⟩], fun _ => 0,
   fun _ _ => 0, fun _ _ => .ok .null, saveCtx0⟩

/-- Witness for `run_agent_terminal_event`: a concrete pure-text run
does not crash and its stream is well terminated. -/
theorem run_agent_terminal_event_witness :
    (run_agent 10 "q" [] scrText).crash = none ∧
      goodStream (run_agent 10 "q" [] scrText).events :=
  ⟨rfl, run_agent_terminal_event 10 "q" [] scrText rfl⟩

/-- **C3 counterexample.** When the model requests `query_provisions_db`
with no `sql` field, the dispatch `KeyError` propagates out of the
generator: the run crashes and the emitted stream contains no `done`
event at all — refuting "for every run … the event stream contains
exactly one done event". -/
theorem run_agent_terminal_counterexample :
    (run_agent 10 "q" [] scrMissingSql).crash = some (.keyError "sql") ∧
      doneCount (run_agent 10 "q" [] scrMissingSql).events = 0 :=
  ⟨rfl, rfl⟩

/-- **C4 (amended).** When the first model call fails, the stream is the
initial `status` event, the heartbeat `status` events observed while
waiting, then exactly `error` and `done`; no `history`, `text` or tool
events are emitted, and exactly one model call is issued.  (The
unamended "exactly `[error, done]`" claim fails: the orchestrator always
yields a `status` event before the model call — see the
counterexample.) -/
theorem run_agent_model_fault (maxR : Nat) (q : String) (hist : List JVal)
    (s : Script) (m : String) (hmr : 0 < maxR) (hcl : s.clientErr = none)
    (hm : s.modelCall 0 = .apiError m) :
    (run_agent maxR q hist s).events =
      Event.status analyzingMsg :: hbStatuses "Analyzing results" (s.modelHb 0) ++
        [.error ("Claude API error: " ++ m), .done] ∧
      (run_agent maxR q hist s).calls = 1 := by
  match maxR, hmr with
  | rl + 1, _ =>
    simp only [run_agent, hcl, runLoop, hm]
    exact ⟨by trivial, by trivial⟩

/-- Witness for `run_agent_model_fault` at a concrete failing run. -/
theorem run_agent_model_fault_witness :
    (run_agent 1 "q" [] scrApiFail).events =
        Event.status analyzingMsg :: hbStatuses "Analyzing results" (scrApiFail.modelHb 0) ++
          [.error ("Claude API error: " ++ "boom"), .done] ∧
      (run_agent 1 "q" [] scrApiFail).calls = 1 :=
  run_agent_model_fault 1 "q" [] scrApiFail "boom" (by norm_num) rfl rfl

/-- **C4 counterexample.** On a concrete first-call failure the stream
has three events and starts with a `status` event, so it is not exactly
the two events `[error, done]`. -/
theorem run_agent_model_fault_counterexample :
    (run_agent 1 "q" [] scrApiFail).events.length = 3 ∧
      (run_agent 1 "q" [] scrApiFail).events.head? = some (.status analyzingMsg) :=
  ⟨rfl, rfl⟩

theorem runLoop_calls_le (s : Script) :
    ∀ (rl roundIdx : Nat) (messages : List JVal),
      (runLoop s roundIdx rl messages).calls ≤ rl := by
  intro rl
  induction rl with
  | zero =>
    intro roundIdx messages
    cases hs : serialize_messages messages with
    | error e => simp [runLoop, hs]
    | ok ser => simp [runLoop, hs]
  | succ k ih =>
    intro roundIdx messages
    cases hm : s.modelCall roundIdx with
    | apiError m => simp [runLoop, hm]
    | ok blocks =>
      cases ht : toolUsesOf blocks with
      | nil =>
        cases hs : serialize_messages (messages ++ [assistantMsgOf blocks]) with
        | error e => simp [runLoop, hm, ht, hs]
        | ok ser => simp [runLoop, hm, ht, hs]
      | cons t ts =>
        cases hcr : (processTools s roundIdx 0 (t :: ts)).2.2 with
        | some e => simp [runLoop, hm, ht, hcr]
        | none =>
          simp only [runLoop, hm, ht, hcr]
          exact Nat.succ_le_succ (ih (roundIdx + 1) _)

theorem runLoop_ceiling (s : Script) :
    ∀ (rl roundIdx : Nat) (messages : List JVal),
      (runLoop s roundIdx rl messages).crash = none →
      (∀ i, i < rl → ∃ blocks, s.modelCall (roundIdx + i) = .ok blocks ∧
        toolUsesOf blocks ≠ []) →
      (runLoop s roundIdx rl messages).calls = rl ∧
        ∃ (pre : List Event) (ser : JVal), (runLoop s roundIdx rl messages).events =
          pre ++ [.text roundsExhaustedMsg, .history ser, .done] := by
  intro rl
  induction rl with
  | zero =>
    intro roundIdx messages hc _
    cases hs : serialize_messages messages with
    | error e =>
      simp only [runLoop, hs] at hc
      exact absurd hc (by simp)
    | ok ser =>
      simp only [runLoop, hs]
      exact ⟨trivial, [], .obj [("messages", .arr ser)], rfl⟩
  | succ k ih =>
    intro roundIdx messages hc hreq
    obtain ⟨blocks, hm, htne⟩ := hreq 0 (Nat.succ_pos k)
    rw [Nat.add_zero] at hm
    cases ht : toolUsesOf blocks with
    | nil => exact absurd ht htne
    | cons t ts =>
      cases hcr : (processTools s roundIdx 0 (t :: ts)).2.2 with
      | some e =>
        simp only [runLoop, hm, ht, hcr] at hc
        exact absurd hc (by simp)
      | none =>
        have hc2 := hc
        simp only [runLoop, hm, ht, hcr] at hc2
        have hreq2 : ∀ i, i < k → ∃ blocks2, s.modelCall (roundIdx + 1 + i) = .ok blocks2 ∧
            toolUsesOf blocks2 ≠ [] := by
          intro i hik
          have := hreq (i + 1) (Nat.succ_lt_succ hik)
          rwa [show roundIdx + (i + 1) = roundIdx + 1 + i by omega] at this
        obtain ⟨hcalls, pre2, ser, hev⟩ := ih (roundIdx + 1) _ hc2 hreq2
        simp only [runLoop, hm, ht, hcr]
        refine ⟨by rw [hcalls], ?_⟩
        refine ⟨(Event.status analyzingMsg ::
            hbStatuses "Analyzing results" (s.modelHb roundIdx) ++ textEventsOf blocks ++
            (processTools s roundIdx 0 (t :: ts)).1) ++ pre2, ser, ?_⟩
        rw [hev]
        simp only [List.append_assoc]

/-- **C5.** For `max_rounds = N`: every run issues at most `N` model
calls; and every crash-free run in which each of the `N` model responses
requests at least one tool call issues exactly `N` model calls and ends
its stream with the round-ceiling explanatory `text` event, then the
`history` event, then `done`. -/
theorem run_agent_round_ceiling :
    (∀ (maxR : Nat) (q : String) (hist : List JVal) (s : Script),
        (run_agent maxR q hist s).calls ≤ maxR) ∧
      (∀ (maxR : Nat) (q : String) (hist : List JVal) (s : Script),
        s.clientErr = none →
        (run_agent maxR q hist s).crash = none →
        (∀ i, i < maxR → ∃ blocks, s.modelCall i = .ok blocks ∧ toolUsesOf blocks ≠ []) →
        (run_agent maxR q hist s).calls = maxR ∧
          ∃ (pre : List Event) (ser : JVal), (run_agent maxR q hist s).events =
            pre ++ [.text roundsExhaustedMsg, .history ser, .done]) := by
  constructor
  · intro maxR q hist s
    cases hcl : s.clientErr with
    | some e => simp [run_agent, hcl]
    | none =>
      simp only [run_agent, hcl]
      exact runLoop_calls_le s maxR 0 _
  · intro maxR q hist s hcl hc hreq
    simp only [run_agent, hcl] at hc ⊢
    exact runLoop_ceiling s maxR 0 _ hc (fun i hi => by simpa using hreq i hi)

/-- Witness for `run_agent_round_ceiling`: a concrete 2-round
chart-requesting run makes exactly 2 model calls and ends with the
ceiling text, `history`, `done`. -/
theorem run_agent_round_ceiling_witness :
    (run_agent 2 "q" [] scrChartLoop).calls = 2 ∧
      ∃ (pre : List Event) (ser : JVal), (run_agent 2 "q" [] scrChartLoop).events =
        pre ++ [.text roundsExhaustedMsg, .history ser, .done] :=
  run_agent_round_ceiling.2 2 "q" [] scrChartLoop rfl rfl
    (fun i _ => ⟨[.tool_use ⟨"t1", "render_chart", []⟩], rfl, List.cons_ne_nil _ _⟩)

/-! ## Bounded Investigation Variant
(src/routes/alert.py 63–86; `run_alert_investigation`) -/

/-- The caller-facing verdict record of an alert investigation
(`AlertResponse` minus the timing field, which is wall-clock
dependent). -/
structure AlertVerdict where
  should_alert : Bool
  severity : String
  summary : String
  investigation_log : String

/-- How a bounded-investigation run terminated (spec §4.4–4.5):
a clean NoToolCalls termination, the round ceiling, or a model-call
fault. -/
inductive InvestigationTermination
  | clean
  | roundsExhausted
  | errored

/-- Modelled from the spec: `run_alert_investigation` is imported by
src/routes/alert.py from `src.agent.orchestrator` but is absent from the
source tree, so its caller-facing result is modelled from spec §4.5.
`submitted` is the verdict recorded by the designated submit-verdict
tool, if the model called it; when the run terminates (in particular via
`RoundsExhausted` or `error`) without that tool having been called, the
result defaults to the conservative treat-as-suspicious verdict
(`should_alert := true`) rather than silence. -/
def run_alert_investigation (term : InvestigationTermination)
    (submitted : Option AlertVerdict) : AlertVerdict :=
  match term, submitted with
  | _, some v => v
  | _, none =>
    ⟨true, "medium",
     "Investigation ended without a submitted verdict — alerting as a precaution.", ""⟩

/-- The exception fallback of `investigate_alert`
(src/routes/alert.py 63–86): if `run_alert_investigation` raises, the
endpoint returns the conservative alert-true record instead of
propagating a hard failure.  `outcome` is the awaited call result. -/
def investigate_alert (outcome : Except String AlertVerdict) : AlertVerdict :=
  match outcome with
  | .ok r => r
  | .error _ =>
    ⟨true, "medium",
     "Investigation encountered an unexpected error — alerting as a precaution.", ""⟩

/-- **C9.** A bounded-investigation run that terminates via
`RoundsExhausted` or `error` without the submit-verdict tool having been
called yields the conservative treat-as-suspicious verdict
(`should_alert = true`); and at the endpoint layer, an exception from
the investigation also yields `should_alert = true` rather than a hard
failure. -/
theorem alert_safe_default :
    (∀ term : InvestigationTermination,
        term = .roundsExhausted ∨ term = .errored →
        (run_alert_investigation term none).should_alert = true) ∧
      (∀ e : String, (investigate_alert (.error e)).should_alert = true) := by
  constructor
  · intro term _
    cases term <;> rfl
  · intro e
    rfl

/-- Witness for `alert_safe_default` at the round-ceiling termination. -/
theorem alert_safe_default_witness :
    (run_alert_investigation .roundsExhausted none).should_alert = true ∧
      (investigate_alert (.error "boom")).should_alert = true :=
  ⟨alert_safe_default.1 .roundsExhausted (Or.inl rfl), alert_safe_default.2 "boom"⟩

end Parsec
